import Mathlib

/-
Verification of the weekly arXiv report generator (`weekly_generator.py`).

The pipeline is embedded shallowly:
* Python strings are `String`; `str.strip()` is `pyStrip`, Python's
  substring test `needle in hay` is `strContains`, `"sep".join(...)` is
  `joinSep`.
* The HTML document fetched for one day is modelled as the list of the
  structural units (`div.col-md-6 col-lg-4 mb-4` cards) that BeautifulSoup
  would locate, each carrying the optional elements the code reads:
  the `h5.card-title` element (text plus the optional `href` of its first
  anchor), the `div.card-text` text, and the `small` text.
* The `requests.get` call is modelled by a `FetchOutcome` input: either a
  response with a status code and the parsed units, or a raised transport
  error (which the `try/except` in `get_daily_papers` also covers for any
  parse-time exception).
* The OpenAI chat-completion call inside `generate_weekly_report` is
  modelled by an `Except String String` input: `.ok text` is the message
  content of the first choice, `.error e` is a raised backend exception
  whose `str(e)` is `e`.
* `datetime.now()` is modelled as an `Int` day number `now`;
  `strftime("%Y-%m-%d")` is an arbitrary formatting function
  `fmt : Int → String`.
-/

/-! ### String primitives (Python semantics) -/

/-- Python whitespace test used by `str.strip()` (restricted to the ASCII
whitespace characters, which are the only ones the program's data uses). -/
def pyIsSpace (c : Char) : Bool :=
  c = ' ' ∨ c = '\t' ∨ c = '\n' ∨ c = '\r' ∨ c = '\x0b' ∨ c = '\x0c'

/-- `str.strip()` on the character list: drop whitespace from both ends. -/
def pyStripList (l : List Char) : List Char :=
  ((l.dropWhile pyIsSpace).reverse.dropWhile pyIsSpace).reverse

/-- Python `s.strip()`. -/
def pyStrip (s : String) : String := ⟨pyStripList s.data⟩

/-- `hasPrefixL needle hay`: `hay` starts with `needle`. -/
def hasPrefixL : List Char → List Char → Bool
  | [], _ => true
  | _ :: _, [] => false
  | n :: ns, h :: hs => n = h && hasPrefixL ns hs

/-- `containsL hay needle`: `needle` occurs contiguously inside `hay`. -/
def containsL : List Char → List Char → Bool
  | [], needle => needle.isEmpty
  | h :: hs, needle => hasPrefixL needle (h :: hs) || containsL hs needle

/-- Python's substring test `needle in hay`. -/
def strContains (hay needle : String) : Bool := containsL hay.data needle.data

/-- Python `sep.join(parts)`. -/
def joinSep (sep : String) : List String → String
  | [] => ""
  | [s] => s
  | s :: t :: rest => s ++ sep ++ joinSep sep (t :: rest)

theorem hasPrefixL_iff (n : List Char) : ∀ h : List Char,
    hasPrefixL n h = true ↔ ∃ r, h = n ++ r := by
  induction n with
  | nil => intro h; simp [hasPrefixL]
  | cons c cs ih =>
    intro h
    cases h with
    | nil => simp [hasPrefixL]
    | cons d ds =>
      simp only [hasPrefixL, Bool.and_eq_true, decide_eq_true_eq, ih,
        List.cons_append, List.cons.injEq]
      constructor
      · rintro ⟨rfl, r, rfl⟩; exact ⟨r, rfl, rfl⟩
      · rintro ⟨r, rfl, rfl⟩; exact ⟨rfl, r, rfl⟩

theorem containsL_iff (h n : List Char) :
    containsL h n = true ↔ ∃ p q, h = p ++ n ++ q := by
  induction h with
  | nil =>
    simp only [containsL, List.isEmpty_iff]
    constructor
    · rintro rfl; exact ⟨[], [], rfl⟩
    · rintro ⟨p, q, hpq⟩
      rcases List.append_eq_nil.mp (List.append_eq_nil.mp hpq.symm).1 with ⟨-, h2⟩
      exact h2
  | cons c cs ih =>
    simp only [containsL, Bool.or_eq_true, hasPrefixL_iff, ih]
    constructor
    · rintro (⟨r, hr⟩ | ⟨p, q, hpq⟩)
      · exact ⟨[], r, by simpa using hr⟩
      · exact ⟨c :: p, q, by simp [hpq]⟩
    · rintro ⟨p, q, hpq⟩
      cases p with
      | nil => exact Or.inl ⟨q, by simpa using hpq⟩
      | cons x xs =>
        simp only [List.cons_append, List.cons.injEq] at hpq
        exact Or.inr ⟨xs, q, hpq.2⟩

theorem strContains_iff (hay needle : String) :
    strContains hay needle = true ↔ ∃ p q : String, hay = p ++ needle ++ q := by
  unfold strContains
  rw [containsL_iff]
  constructor
  · rintro ⟨p, q, hpq⟩
    exact ⟨⟨p⟩, ⟨q⟩, String.ext (by simpa [String.data_append] using hpq)⟩
  · rintro ⟨p, q, rfl⟩
    exact ⟨p.data, q.data, by simp [String.data_append]⟩

theorem strContains_of_eq (hay needle p q : String) (h : hay = p ++ needle ++ q) :
    strContains hay needle = true :=
  (strContains_iff hay needle).mpr ⟨p, q, h⟩

theorem joinSep_mem (sep : String) : ∀ (l : List String) (x : String), x ∈ l →
    ∃ p q : String, joinSep sep l = p ++ x ++ q := by
  intro l
  induction l with
  | nil => intro x hx; simp at hx
  | cons s t ih =>
    intro x hx
    rcases List.mem_cons.mp hx with rfl | hxt
    · cases t with
      | nil => exact ⟨"", "", by simp [joinSep]⟩
      | cons u us =>
        refine ⟨"", sep ++ joinSep sep (u :: us), String.ext ?_⟩
        simp [joinSep, String.data_append, List.append_assoc]
    · cases t with
      | nil => simp at hxt
      | cons u us =>
        obtain ⟨p, q, hp⟩ := ih x hxt
        refine ⟨s ++ sep ++ p, q, String.ext ?_⟩
        simp [joinSep, hp, String.data_append, List.append_assoc]

/-! ### Configuration (`weekly_generator.py`, lines 13-15) -/

/-- The single entry of `TARGET_CATEGORIES` as written in the source. -/
def cat0 : String := "All ,cs.AI ,cs.CE ,cs.CL ,cs.CV ,cs.GT ,cs.IT"

/-- `TARGET_CATEGORIES = ["All ,cs.AI ,cs.CE ,cs.CL ,cs.CV ,cs.GT ,cs.IT"]`:
a one-element Python list holding one long string. -/
def TARGET_CATEGORIES : List String := [cat0]

/-- `WEEK_DAYS = 7`. -/
def WEEK_DAYS : Nat := 7

/-! ### Data model -/

/-- One paper dict as built at lines 59-65 (insertion order of the keys is
`date, title, abstract, meta, url`, reflected by the field order). -/
structure PaperRecord where
  date : String
  title : String
  abstract : String
  meta : String
  url : String
deriving DecidableEq, Repr

/-- The `h5.card-title` element of a card: its text and, when the card has
an `<a>` child carrying an `href`, that link. -/
structure TitleElem where
  text : String
  link : Option String
deriving DecidableEq, Repr

/-- One structural unit (`div.col-md-6 col-lg-4 mb-4` card) of a day page,
holding the three optional elements the extractor reads. -/
structure PaperUnit where
  titleElem : Option TitleElem
  abstractText : Option String
  metaText : Option String
deriving DecidableEq, Repr

/-- Outcome of `requests.get` for one day: a response (status code plus the
units BeautifulSoup finds in the body) or a raised exception. The
`failure` case also stands for any exception raised inside the `try`
block, all of which the `except` at line 69 turns into `[]`. -/
inductive FetchOutcome where
  | success (status : Nat) (units : List PaperUnit)
  | failure (err : String)
deriving DecidableEq, Repr

/-! ### Record Extractor and Category Filter (lines 22-71) -/

/-- Line 58: `any(cat.strip() in meta_text for cat in TARGET_CATEGORIES)`. -/
def matchesFilter (meta_text : String) : Bool :=
  TARGET_CATEGORIES.any (fun cat => strContains meta_text (pyStrip cat))

/-- Line 46: `title_elem.text.strip() if title_elem else ""`. -/
def titleOf (u : PaperUnit) : String :=
  match u.titleElem with
  | some t => pyStrip t.text
  | none => ""

/-- Line 47: the `href` of the title's anchor when present, else `""`. -/
def urlOf (u : PaperUnit) : String :=
  match u.titleElem with
  | some t => match t.link with
    | some href => href
    | none => ""
  | none => ""

/-- Line 51: `abstract_elem.text.strip() if abstract_elem else ""`. -/
def abstractOf (u : PaperUnit) : String :=
  match u.abstractText with
  | some a => pyStrip a
  | none => ""

/-- Line 55: `meta_elem.text.strip() if meta_elem else ""`. -/
def metaOf (u : PaperUnit) : String :=
  match u.metaText with
  | some m => pyStrip m
  | none => ""

/-- Lines 44-65: process one card; append a paper dict exactly when the
category filter accepts the metadata text. -/
def extractUnit (date_str : String) (u : PaperUnit) : Option PaperRecord :=
  if matchesFilter (metaOf u) then
    some { date := date_str, title := titleOf u, abstract := abstractOf u,
           meta := metaOf u, url := urlOf u }
  else
    none

/-- `get_daily_papers` (lines 22-71): empty list on a non-200 status or on
any raised exception, otherwise the filtered records of all cards in order. -/
def get_daily_papers (date_str : String) (outcome : FetchOutcome) : List PaperRecord :=
  match outcome with
  | .failure _ => []
  | .success status units =>
    if status ≠ 200 then [] else units.filterMap (extractUnit date_str)

/-! ### Weekly Aggregator (lines 73-95) -/

/-- Line 79: `categorized_papers = {cat: [] for cat in TARGET_CATEGORIES}`,
the dict modelled as an association list keeping the configured key order. -/
def initIdx (cats : List String) : List (String × List PaperRecord) :=
  cats.map (fun c => (c, []))

/-- Append a record to the value list of the given key
(`categorized_papers[cat].append(paper)`). -/
def appendAt (idx : List (String × List PaperRecord)) (cat : String) (p : PaperRecord) :
    List (String × List PaperRecord) :=
  match idx with
  | [] => []
  | (c, ps) :: rest =>
    if c = cat then (c, ps ++ [p]) :: rest else (c, ps) :: appendAt rest cat p

/-- The first configured category whose label occurs in the metadata text
(the `for cat in TARGET_CATEGORIES: if cat in paper["meta"]` scan with its
`break`). Note the scan uses the label unstripped, unlike the filter. -/
def firstMatch : List String → String → Option String
  | [], _ => none
  | c :: cs, meta => if strContains meta c then some c else firstMatch cs meta

/-- Lines 89-93: place one paper under its first matching category; a paper
matching no category is left out of the dict. -/
def categorize1 (cats : List String) (idx : List (String × List PaperRecord))
    (p : PaperRecord) : List (String × List PaperRecord) :=
  match firstMatch cats p.meta with
  | some c => appendAt idx c p
  | none => idx

/-- Python dict lookup on the association list (total: a missing key gives
`[]`, which only ever models a key that was never created). -/
def lookupIdx (idx : List (String × List PaperRecord)) (cat : String) : List PaperRecord :=
  match idx with
  | [] => []
  | (c, ps) :: rest => if c = cat then ps else lookupIdx rest cat

/-- The body of the `for i in range(WEEK_DAYS)` loop (lines 82-93):
fetch-and-extract the day `now - i`, extend the flat list, and categorize
that day's papers in order. -/
def weeklyStep (fmt : Int → String) (fetch : String → FetchOutcome) (now : Int)
    (acc : List PaperRecord × List (String × List PaperRecord)) (i : Nat) :
    List PaperRecord × List (String × List PaperRecord) :=
  let date_str := fmt (now - (i : Int))
  let daily_papers := get_daily_papers date_str (fetch date_str)
  (acc.1 ++ daily_papers, daily_papers.foldl (categorize1 TARGET_CATEGORIES) acc.2)

/-- `get_weekly_papers` (lines 73-95), with the ambient clock and the
network abstracted into `now`, `fmt` and `fetch`. -/
def get_weekly_papers (fmt : Int → String) (fetch : String → FetchOutcome) (now : Int) :
    List PaperRecord × List (String × List PaperRecord) :=
  (List.range WEEK_DAYS).foldl (weeklyStep fmt fetch now) ([], initIdx TARGET_CATEGORIES)

/-- The extraction result of the day-page at date `d`. -/
def dayAt (fmt : Int → String) (fetch : String → FetchOutcome) (d : Int) : List PaperRecord :=
  get_daily_papers (fmt d) (fetch (fmt d))

/-- The extraction result of the `i`-th day of the window. -/
def dayPapers (fmt : Int → String) (fetch : String → FetchOutcome) (now : Int) (i : Nat) :
    List PaperRecord :=
  dayAt fmt fetch (now - (i : Int))

/-! ### Report Synthesizer (lines 97-141) -/

/-- Line 130: the per-category count block of the fallback report. -/
def category_details (idx : List (String × List PaperRecord)) : String :=
  joinSep "\n"
    (idx.map (fun e => "### " ++ e.1 ++ "\n- 本周共" ++ toString e.2.length ++ "篇相关论文"))

/-- Lines 131-141: the fallback report returned when the backend call
raises, with `today` the `datetime.now().strftime('%Y-%m-%d')` value and
`err` the `str(e)` of the caught exception. -/
def fallbackReport (today : String) (idx : List (String × List PaperRecord))
    (err : String) : String :=
  "# arXiv 每周论文汇总 (" ++ today ++ ")" ++
  "\n\n## 整体总结\n本周未成功生成AI领域研究趋势总结（原因：" ++ err ++
  "）。\n\n## 分类详情\n" ++ category_details idx ++
  "\n\n## 值得关注的论文\n暂无（生成失败）\n"

/-- `generate_weekly_report` (lines 97-141): on a successful backend call
return the trimmed completion text, on a raised backend error return the
fallback report built from the index and the error text alone. -/
def generate_weekly_report (today : String) (backendResult : Except String String)
    (categorized_papers : List (String × List PaperRecord)) : String :=
  match backendResult with
  | .ok text => pyStrip text
  | .error e => fallbackReport today categorized_papers e

/-! ### Main flow (lines 167-201) -/

/-- Lines 179-194: the hardcoded empty-window report. Its category list is
the literal `cs.AI / cs.LG / stat.ML`, independent of `TARGET_CATEGORIES`. -/
def emptyReport (today : String) : String :=
  "# arXiv 每周论文汇总 (" ++ today ++ ")" ++
  "\n\n## 整体总结\n本周未爬取到 cs.AI/cs.LG/stat.ML 分类的相关论文，请检查：\n" ++
  "1. 原项目每日论文页面是否正常访问；\n2. 目标分类是否正确；\n" ++
  "3. 网络是否能访问arXiv相关页面。\n\n## 分类详情\n" ++
  "- cs.AI：0篇\n- cs.LG：0篇\n- stat.ML：0篇\n\n## 值得关注的论文\n暂无\n"

/-- Lines 176-197: choose the report. The second component records whether
the text-generation backend was consulted (`generate_weekly_report` is only
reached in the `else` branch). -/
def mainReport (today : String) (backendResult : Except String String)
    (weekly_papers : List PaperRecord)
    (categorized_papers : List (String × List PaperRecord)) : String × Bool :=
  if weekly_papers.length = 0 then
    (emptyReport today, false)
  else
    (generate_weekly_report today backendResult categorized_papers, true)

/-! ### Persistence Sink (lines 143-165)

`save_files` feeds the paper dicts to `pandas.DataFrame.to_json` with
`orient="records"` and `force_ascii=False`, and writes the report text to
`weekly_report.md` verbatim. The serializer below models the pandas JSON
record output: one object per record, keys in the dicts' insertion order
(`date, title, abstract, meta, url`), string values with the JSON escapes
pandas applies (quote, backslash, forward slash, control characters) and —
because of `force_ascii=False` — non-ASCII characters emitted raw. The
pretty-printing whitespace of `indent=2` is elided as irrelevant here. -/

/-- Hex digit for the `\u00XX` escape of a control character. -/
def hexDigit (n : Nat) : Char :=
  if n < 10 then Char.ofNat (48 + n) else Char.ofNat (87 + n)

/-- JSON escape of one character under `force_ascii=False`. -/
def escapeJsonChar (c : Char) : String :=
  if c = '"' then "\\\""
  else if c = '\\' then "\\\\"
  else if c = '/' then "\\/"
  else if c = '\n' then "\\n"
  else if c = '\r' then "\\r"
  else if c = '\t' then "\\t"
  else if c.toNat < 32 then
    "\\u00" ++ String.singleton (hexDigit (c.toNat / 16)) ++
      String.singleton (hexDigit (c.toNat % 16))
  else String.singleton c

/-- JSON escape of a string value. -/
def escapeJson (s : String) : String :=
  s.data.foldl (fun acc c => acc ++ escapeJsonChar c) ""

/-- One record as a JSON object, fields in the dict insertion order of
lines 59-65. -/
def recordToJson (p : PaperRecord) : String :=
  "\x7b\"date\":\"" ++ escapeJson p.date ++
  "\",\"title\":\"" ++ escapeJson p.title ++
  "\",\"abstract\":\"" ++ escapeJson p.abstract ++
  "\",\"meta\":\"" ++ escapeJson p.meta ++
  "\",\"url\":\"" ++ escapeJson p.url ++ "\"\x7d"

/-- `save_files` (lines 143-165): the pair of produced file contents,
`(weekly_papers.json, weekly_report.md)`. The report is written verbatim. -/
def save_files (weekly_papers : List PaperRecord) (report : String) : String × String :=
  ("[" ++ joinSep "," (weekly_papers.map recordToJson) ++ "]", report)

/-! ### Named predicates and concrete test fixtures -/

/-- A fetch that yields no usable day page: a raised transport error, or a
response whose status is not 200. -/
def noData : FetchOutcome → Prop
  | .failure _ => True
  | .success status _ => status ≠ 200

/-- A card with no title element and no abstract element, whose metadata
text is the configured category string. -/
def u0 : PaperUnit := ⟨none, none, some cat0⟩

/-- The record `u0` extracts on date `"d"`. -/
def r0 : PaperRecord := ⟨"d", "", "", cat0, ""⟩

/-- A date formatter sending every day to `"d"`. -/
def wfmt : Int → String := fun _ => "d"

/-- A network on which every day page holds exactly the card `u0`. -/
def wfetch : String → FetchOutcome := fun _ => .success 200 [u0]

/-- A date formatter injective on the window: day `z` is `natAbs z`
letters `x`. -/
def wfmt6 : Int → String := fun z => ⟨List.replicate z.natAbs 'x'⟩

/-- A network on which every fetch raises. -/
def wfetch6 : String → FetchOutcome := fun _ => .failure "connection reset"

/-- A two-key categorized index used to exercise the fallback report. -/
def idx0 : List (String × List PaperRecord) := [("cs.AI", [r0]), ("math", [])]

/-- A fully populated concrete record. -/
def p0 : PaperRecord := ⟨"2025-01-01", "Paper T", "Abstract", cat0, "/papers/a"⟩

/-! ### Helper lemmas -/

theorem sanity_extract : get_daily_papers "2025-01-01"
    (.success 200 [⟨some ⟨" Paper A ", some "/papers/a"⟩, some "Abstract A", some cat0⟩]) =
    [⟨"2025-01-01", "Paper A", "Abstract A", cat0, "/papers/a"⟩] := by decide

theorem sanity_sink : (save_files [⟨"d", "t", "a", "m", "u"⟩] "r").1 =
    "[\x7b\"date\":\"d\",\"title\":\"t\",\"abstract\":\"a\",\"meta\":\"m\",\"url\":\"u\"\x7d]" := by
  decide

theorem pyStrip_cat0 : pyStrip cat0 = cat0 := by decide

theorem matchesFilter_iff_cat0 (m : String) :
    matchesFilter m = true ↔ strContains m cat0 = true := by
  simp [matchesFilter, TARGET_CATEGORIES, pyStrip_cat0]

/-- Every record a day yields passed the filter on its own `meta` and
carries the day's date string. -/
theorem mem_daily {d : String} {f : FetchOutcome} {p : PaperRecord}
    (h : p ∈ get_daily_papers d f) : matchesFilter p.meta = true ∧ p.date = d := by
  cases f with
  | failure e => simp [get_daily_papers] at h
  | success status units =>
    simp only [get_daily_papers] at h
    split at h
    · simp at h
    · obtain ⟨u, -, hu⟩ := List.mem_filterMap.mp h
      unfold extractUnit at hu
      split at hu
      next hm =>
        cases hu
        exact ⟨hm, rfl⟩
      next => cases hu

theorem wk_fold_fst (fmt : Int → String) (fetch : String → FetchOutcome) (now : Int) :
    ∀ (l : List Nat) (acc : List PaperRecord) (idx : List (String × List PaperRecord)),
      (l.foldl (weeklyStep fmt fetch now) (acc, idx)).1 =
        acc ++ (l.map (dayPapers fmt fetch now)).flatten := by
  intro l
  induction l with
  | nil => intro acc idx; simp
  | cons i t ih =>
    intro acc idx
    simp only [List.foldl_cons, List.map_cons, List.flatten_cons, weeklyStep, ih,
      List.append_assoc]
    rfl

theorem wk_fold_snd (fmt : Int → String) (fetch : String → FetchOutcome) (now : Int) :
    ∀ (l : List Nat) (acc : List PaperRecord) (idx : List (String × List PaperRecord)),
      (l.foldl (weeklyStep fmt fetch now) (acc, idx)).2 =
        ((l.map (dayPapers fmt fetch now)).flatten).foldl (categorize1 TARGET_CATEGORIES) idx := by
  intro l
  induction l with
  | nil => intro acc idx; simp
  | cons i t ih =>
    intro acc idx
    simp only [List.foldl_cons, List.map_cons, List.flatten_cons, weeklyStep, ih,
      List.foldl_append]
    rfl

/-- The flat weekly list is the concatenation of the per-day extractions. -/
theorem weekly_fst (fmt : Int → String) (fetch : String → FetchOutcome) (now : Int) :
    (get_weekly_papers fmt fetch now).1 =
      ((List.range WEEK_DAYS).map (dayPapers fmt fetch now)).flatten := by
  simpa using wk_fold_fst fmt fetch now (List.range WEEK_DAYS) [] (initIdx TARGET_CATEGORIES)

/-- The categorized dict is the categorization fold over the flat list. -/
theorem weekly_snd (fmt : Int → String) (fetch : String → FetchOutcome) (now : Int) :
    (get_weekly_papers fmt fetch now).2 =
      ((get_weekly_papers fmt fetch now).1).foldl (categorize1 TARGET_CATEGORIES)
        (initIdx TARGET_CATEGORIES) := by
  rw [weekly_fst]
  exact wk_fold_snd fmt fetch now (List.range WEEK_DAYS) [] (initIdx TARGET_CATEGORIES)

/-- Every record of the flat weekly list comes from one of the window's
days. -/
theorem mem_weekly {fmt : Int → String} {fetch : String → FetchOutcome} {now : Int}
    {p : PaperRecord} (h : p ∈ (get_weekly_papers fmt fetch now).1) :
    ∃ i, i < WEEK_DAYS ∧ p ∈ dayPapers fmt fetch now i := by
  rw [weekly_fst] at h
  obtain ⟨s, hs, hps⟩ := List.mem_flatten.mp h
  obtain ⟨i, hi, rfl⟩ := List.mem_map.mp hs
  exact ⟨i, List.mem_range.mp hi, hps⟩

/-- The categorization fold over the single-key dict of this configuration
appends exactly the records whose `meta` contains the one category label. -/
theorem cat_fold : ∀ (papers : List PaperRecord) (ps : List PaperRecord),
    papers.foldl (categorize1 TARGET_CATEGORIES) [(cat0, ps)] =
      [(cat0, ps ++ papers.filter (fun p => strContains p.meta cat0))] := by
  intro papers
  induction papers with
  | nil => intro ps; simp
  | cons p t ih =>
    intro ps
    rw [List.foldl_cons]
    by_cases hp : strContains p.meta cat0 = true
    · have hstep : categorize1 TARGET_CATEGORIES [(cat0, ps)] p = [(cat0, ps ++ [p])] := by
        simp [categorize1, TARGET_CATEGORIES, firstMatch, hp, appendAt]
      rw [hstep, ih]
      simp [List.filter_cons, hp, List.append_assoc]
    · have hstep : categorize1 TARGET_CATEGORIES [(cat0, ps)] p = [(cat0, ps)] := by
        simp [categorize1, TARGET_CATEGORIES, firstMatch, hp]
      rw [hstep, ih]
      simp [List.filter_cons, hp]

/-- With the source's configuration, the categorized dict is the single
entry holding the whole flat list: every flat record passed the filter,
whose (stripped) label equals the unstripped label used while grouping. -/
theorem weekly_idx_eq (fmt : Int → String) (fetch : String → FetchOutcome) (now : Int) :
    (get_weekly_papers fmt fetch now).2 = [(cat0, (get_weekly_papers fmt fetch now).1)] := by
  rw [weekly_snd]
  show (get_weekly_papers fmt fetch now).1.foldl (categorize1 TARGET_CATEGORIES)
      [(cat0, [])] = _
  rw [cat_fold]
  congr 1
  refine Prod.ext rfl ?_
  show [] ++ _ = _
  rw [List.nil_append]
  refine List.filter_eq_self.mpr (fun p hp => ?_)
  obtain ⟨i, -, hpi⟩ := mem_weekly hp
  exact (matchesFilter_iff_cat0 p.meta).mp (mem_daily hpi).1

theorem escapeJsonChar_clean {c : Char} (h1 : c ≠ '"') (h2 : c ≠ '\\') (h3 : c ≠ '/')
    (h4 : 31 < c.toNat) : escapeJsonChar c = String.singleton c := by
  have h5 : c ≠ '\n' := fun hc => by subst hc; exact absurd h4 (by decide)
  have h6 : c ≠ '\r' := fun hc => by subst hc; exact absurd h4 (by decide)
  have h7 : c ≠ '\t' := fun hc => by subst hc; exact absurd h4 (by decide)
  have h8 : ¬ c.toNat < 32 := by omega
  simp [escapeJsonChar, h1, h2, h3, h5, h6, h7, h8]

theorem escape_fold (l : List Char) :
    ∀ acc : String, (∀ c ∈ l, escapeJsonChar c = String.singleton c) →
      l.foldl (fun acc c => acc ++ escapeJsonChar c) acc = acc ++ ⟨l⟩ := by
  induction l with
  | nil =>
    intro acc h
    apply String.ext
    simp [String.data_append]
  | cons c t ih =>
    intro acc h
    rw [List.foldl_cons, h c (List.mem_cons_self c t),
      ih (acc ++ String.singleton c) (fun x hx => h x (List.mem_cons_of_mem c hx))]
    apply String.ext
    simp [String.data_append, String.singleton]

theorem escapeJson_clean (s : String)
    (hs : ∀ c ∈ s.data, c ≠ '"' ∧ c ≠ '\\' ∧ c ≠ '/' ∧ 31 < c.toNat) :
    escapeJson s = s := by
  unfold escapeJson
  rw [escape_fold s.data "" (fun c hc =>
    escapeJsonChar_clean (hs c hc).1 (hs c hc).2.1 (hs c hc).2.2.1 (hs c hc).2.2.2)]
  apply String.ext
  simp [String.data_append]

/-! ### Claim theorems -/

/-- C1: every record in the flat weekly output appears in exactly one value
sequence of the categorized index, namely under the first configured
category whose label is a substring of the record's `meta`; were a record
to match no configured label, it would have to sit under the catch-all
"Other" key (a case the category filter makes unreachable here, since the
single configured label is unchanged by trimming). -/
theorem spec_C1_partition (fmt : Int → String) (fetch : String → FetchOutcome) (now : Int)
    (p : PaperRecord) (hp : p ∈ (get_weekly_papers fmt fetch now).1) :
    ((get_weekly_papers fmt fetch now).2.filter (fun e => decide (p ∈ e.2))).length = 1 ∧
    ((∃ c, firstMatch TARGET_CATEGORIES p.meta = some c ∧
        p ∈ lookupIdx (get_weekly_papers fmt fetch now).2 c) ∨
      (firstMatch TARGET_CATEGORIES p.meta = none ∧
        p ∈ lookupIdx (get_weekly_papers fmt fetch now).2 "Other")) := by
  have hidx := weekly_idx_eq fmt fetch now
  have hm : strContains p.meta cat0 = true := by
    obtain ⟨i, -, hpi⟩ := mem_weekly hp
    exact (matchesFilter_iff_cat0 p.meta).mp (mem_daily hpi).1
  constructor
  · rw [hidx]
    simp [List.filter, hp]
  · refine Or.inl ⟨cat0, ?_, ?_⟩
    · simp [TARGET_CATEGORIES, firstMatch, hm]
    · rw [hidx]
      simpa [lookupIdx] using hp

/-- Witness for C1 at a concrete window: every day page holds the card
`u0`, and the extracted record `r0` lies in the flat output and in exactly
one value sequence of the index. -/
theorem spec_C1_witness :
    r0 ∈ (get_weekly_papers wfmt wfetch 0).1 ∧
    (((get_weekly_papers wfmt wfetch 0).2.filter (fun e => decide (r0 ∈ e.2))).length = 1 ∧
      ((∃ c, firstMatch TARGET_CATEGORIES r0.meta = some c ∧
          r0 ∈ lookupIdx (get_weekly_papers wfmt wfetch 0).2 c) ∨
        (firstMatch TARGET_CATEGORIES r0.meta = none ∧
          r0 ∈ lookupIdx (get_weekly_papers wfmt wfetch 0).2 "Other"))) :=
  ⟨by decide, spec_C1_partition wfmt wfetch 0 r0 (by decide)⟩

/-- C5: the category filter accepts a metadata text exactly when some
configured label, after trimming, occurs verbatim as a contiguous substring
of it, and every record a day's extraction yields passed that filter on its
own `meta`. -/
theorem spec_C5_filter (meta_text d : String) (f : FetchOutcome) (r : PaperRecord) :
    (matchesFilter meta_text = true ↔
      ∃ cat, cat ∈ TARGET_CATEGORIES ∧ ∃ p q : String, meta_text = p ++ pyStrip cat ++ q) ∧
    (r ∈ get_daily_papers d f → matchesFilter r.meta = true) := by
  constructor
  · rw [matchesFilter, List.any_eq_true]
    constructor
    · rintro ⟨cat, hc, hs⟩
      obtain ⟨p, q, hpq⟩ := (strContains_iff _ _).mp hs
      exact ⟨cat, hc, p, q, hpq⟩
    · rintro ⟨cat, hc, p, q, hpq⟩
      exact ⟨cat, hc, (strContains_iff _ _).mpr ⟨p, q, hpq⟩⟩
  · intro h
    exact (mem_daily h).1

/-- Witness for C5: the configured label itself is accepted and decomposes
around a trimmed label, and the concrete record `r0` extracted from a day
page passes the filter. -/
theorem spec_C5_witness :
    (∃ cat, cat ∈ TARGET_CATEGORIES ∧ ∃ p q : String, cat0 = p ++ pyStrip cat ++ q) ∧
    matchesFilter r0.meta = true :=
  ⟨(spec_C5_filter cat0 "d" (.success 200 [u0]) r0).1.mp (by decide),
   (spec_C5_filter cat0 "d" (.success 200 [u0]) r0).2 (by decide)⟩

/-- C7: the weekly aggregation processes exactly the seven dates
`now, now-1, ..., now-6` in that order, and its flat output is the
concatenation of the per-day extraction results in that order, each day's
records kept in extraction order. -/
theorem spec_C7_window (fmt : Int → String) (fetch : String → FetchOutcome) (now : Int) :
    (get_weekly_papers fmt fetch now).1 =
      dayAt fmt fetch now ++ dayAt fmt fetch (now - 1) ++ dayAt fmt fetch (now - 2) ++
      dayAt fmt fetch (now - 3) ++ dayAt fmt fetch (now - 4) ++ dayAt fmt fetch (now - 5) ++
      dayAt fmt fetch (now - 6) := by
  rw [weekly_fst]
  have h7 : List.range WEEK_DAYS = [0, 1, 2, 3, 4, 5, 6] := rfl
  rw [h7]
  simp only [List.map_cons, List.map_nil, List.flatten_cons, List.flatten_nil,
    List.append_nil, dayPapers, List.append_assoc]
  norm_num

/-- C9: the aggregation is a pure function of the reference instant, the
date formatting and the fixed set of per-day fetch outcomes: two runs over
the same inputs produce identical flat record sequences and identical
categorized groupings. -/
theorem spec_C9_deterministic (fmt : Int → String) (fetch : String → FetchOutcome) (now : Int)
    (out1 out2 : List PaperRecord × List (String × List PaperRecord))
    (h1 : out1 = get_weekly_papers fmt fetch now)
    (h2 : out2 = get_weekly_papers fmt fetch now) :
    out1.1 = out2.1 ∧ out1.2 = out2.2 := by
  subst h1
  subst h2
  exact ⟨rfl, rfl⟩

/-- Witness for C9 on a concrete environment. -/
theorem spec_C9_witness :
    (get_weekly_papers wfmt wfetch 0).1 = (get_weekly_papers wfmt wfetch 0).1 ∧
    (get_weekly_papers wfmt wfetch 0).2 = (get_weekly_papers wfmt wfetch 0).2 :=
  spec_C9_deterministic wfmt wfetch 0 (get_weekly_papers wfmt wfetch 0)
    (get_weekly_papers wfmt wfetch 0) rfl rfl

/-- C10: every record the per-day extraction produces for date string `d`
carries `date = d`, so every record of the flat weekly output carries the
formatted date of the window day whose page it came from. -/
theorem spec_C10_date_field (d : String) (f : FetchOutcome) (fmt : Int → String)
    (fetch : String → FetchOutcome) (now : Int) (p q : PaperRecord) :
    (p ∈ get_daily_papers d f → p.date = d) ∧
    (q ∈ (get_weekly_papers fmt fetch now).1 →
      ∃ i, i < WEEK_DAYS ∧ q.date = fmt (now - (i : Int)) ∧
        q ∈ dayPapers fmt fetch now i) := by
  constructor
  · intro h
    exact (mem_daily h).2
  · intro h
    obtain ⟨i, hi, hqi⟩ := mem_weekly h
    exact ⟨i, hi, (mem_daily hqi).2, hqi⟩

/-- Witness for C10: the record `r0` extracted on date `"d"` carries that
date, and inside a concrete weekly run it is traced back to a window day. -/
theorem spec_C10_witness :
    r0.date = "d" ∧
    (∃ i, i < WEEK_DAYS ∧ r0.date = wfmt (0 - (i : Int)) ∧ r0 ∈ dayPapers wfmt wfetch 0 i) :=
  ⟨(spec_C10_date_field "d" (.success 200 [u0]) wfmt wfetch 0 r0 r0).1 (by decide),
   (spec_C10_date_field "d" (.success 200 [u0]) wfmt wfetch 0 r0 r0).2 (by decide)⟩

/-- C6: the per-day fetch-and-extract never escalates a missing day: a
non-200 status or a raised transport error yields the empty record list,
and when the fetch of a window day signals no data (the day's formatted
date being distinct from the other window dates), the flat weekly output
holds no record carrying that date. -/
theorem spec_C6_no_raise (d : String) (status : Nat) (units : List PaperUnit) (err : String)
    (fmt : Int → String) (fetch : String → FetchOutcome) (now : Int) (i : Nat) :
    (status ≠ 200 → get_daily_papers d (.success status units) = []) ∧
    (get_daily_papers d (.failure err) = []) ∧
    (i < WEEK_DAYS → noData (fetch (fmt (now - (i : Int)))) →
      (∀ j : Nat, j < WEEK_DAYS → fmt (now - (j : Int)) = fmt (now - (i : Int)) → j = i) →
      (get_weekly_papers fmt fetch now).1.filter
        (fun p => p.date == fmt (now - (i : Int))) = []) := by
  refine ⟨fun h => by simp [get_daily_papers, h], by simp [get_daily_papers], ?_⟩
  intro hi hnd hinj
  have hnil : dayPapers fmt fetch now i = [] := by
    unfold dayPapers dayAt
    cases hfo : fetch (fmt (now - (i : Int))) with
    | failure e => simp [get_daily_papers]
    | success s us =>
      rw [hfo] at hnd
      have hs : s ≠ 200 := hnd
      simp [get_daily_papers, hs]
  rw [List.filter_eq_nil_iff]
  intro p hp
  simp only [beq_iff_eq]
  intro hpd
  obtain ⟨j, hj, hpj⟩ := mem_weekly hp
  have hdate : p.date = fmt (now - (j : Int)) := (mem_daily hpj).2
  have hji : j = i := hinj j hj (by rw [← hdate]; exact hpd)
  rw [hji, hnil] at hpj
  exact absurd hpj (List.not_mem_nil p)

/-- Witness for C6: a 500 response yields no records, and over a network on
which every fetch raises, the weekly output carries no record dated to the
most recent window day. -/
theorem spec_C6_witness :
    (get_daily_papers "d" (.success 500 [u0]) = []) ∧
    (get_weekly_papers wfmt6 wfetch6 0).1.filter
      (fun p => p.date == wfmt6 (0 - ((0 : Nat) : Int))) = [] :=
  ⟨(spec_C6_no_raise "d" 500 [u0] "e" wfmt6 wfetch6 0 0).1 (by decide),
   (spec_C6_no_raise "d" 500 [u0] "e" wfmt6 wfetch6 0 0).2.2 (by decide) trivial (by decide)⟩

/-- C4: on any backend error the synthesizer returns the fallback report,
which decomposes as a fixed frame around the error text: it contains the
generation-date header, the error description, and one per-category line
whose count is exactly the length of that key's record list; the frame
(and with it every count) is determined by the index and the date alone,
independent of the error's content. -/
theorem spec_C4_fallback (today : String) (idx : List (String × List PaperRecord))
    (err : String) :
    ∃ pre post : String,
      (∀ e : String, generate_weekly_report today (.error e) idx = pre ++ e ++ post) ∧
      strContains (generate_weekly_report today (.error err) idx)
        ("# arXiv 每周论文汇总 (" ++ today ++ ")") = true ∧
      strContains (generate_weekly_report today (.error err) idx) err = true ∧
      ∀ entry ∈ idx,
        strContains (generate_weekly_report today (.error err) idx)
          ("### " ++ entry.1 ++ "\n- 本周共" ++ toString entry.2.length ++ "篇相关论文") =
          true := by
  refine ⟨"# arXiv 每周论文汇总 (" ++ today ++ ")" ++
      "\n\n## 整体总结\n本周未成功生成AI领域研究趋势总结（原因：",
    "）。\n\n## 分类详情\n" ++ category_details idx ++ "\n\n## 值得关注的论文\n暂无（生成失败）\n",
    ?_, ?_, ?_, ?_⟩
  · intro e
    apply String.ext
    simp [generate_weekly_report, fallbackReport, String.data_append, List.append_assoc]
  · apply strContains_of_eq _ _ ""
      ("\n\n## 整体总结\n本周未成功生成AI领域研究趋势总结（原因：" ++ err ++
        "）。\n\n## 分类详情\n" ++ category_details idx ++ "\n\n## 值得关注的论文\n暂无（生成失败）\n")
    apply String.ext
    simp [generate_weekly_report, fallbackReport, String.data_append, List.append_assoc]
  · apply strContains_of_eq _ _
      ("# arXiv 每周论文汇总 (" ++ today ++ ")" ++
        "\n\n## 整体总结\n本周未成功生成AI领域研究趋势总结（原因：")
      ("）。\n\n## 分类详情\n" ++ category_details idx ++ "\n\n## 值得关注的论文\n暂无（生成失败）\n")
    apply String.ext
    simp [generate_weekly_report, fallbackReport, String.data_append, List.append_assoc]
  · intro entry hentry
    obtain ⟨p, q, hp⟩ := joinSep_mem "\n"
      (idx.map (fun e => "### " ++ e.1 ++ "\n- 本周共" ++ toString e.2.length ++ "篇相关论文"))
      ("### " ++ entry.1 ++ "\n- 本周共" ++ toString entry.2.length ++ "篇相关论文")
      (List.mem_map.mpr ⟨entry, hentry, rfl⟩)
    apply strContains_of_eq _ _
      ("# arXiv 每周论文汇总 (" ++ today ++ ")" ++
        "\n\n## 整体总结\n本周未成功生成AI领域研究趋势总结（原因：" ++ err ++
        "）。\n\n## 分类详情\n" ++ p)
      (q ++ "\n\n## 值得关注的论文\n暂无（生成失败）\n")
    apply String.ext
    simp [generate_weekly_report, fallbackReport, category_details, hp,
      String.data_append, List.append_assoc]

/-- Witness for C4 on a concrete two-key index and a concrete error. -/
theorem spec_C4_witness :
    ∃ pre post : String,
      (∀ e : String,
        generate_weekly_report "2025-01-01" (.error e) idx0 = pre ++ e ++ post) ∧
      strContains (generate_weekly_report "2025-01-01" (.error "Connection timeout") idx0)
        ("# arXiv 每周论文汇总 (" ++ "2025-01-01" ++ ")") = true ∧
      strContains (generate_weekly_report "2025-01-01" (.error "Connection timeout") idx0)
        "Connection timeout" = true ∧
      ∀ entry ∈ idx0,
        strContains (generate_weekly_report "2025-01-01" (.error "Connection timeout") idx0)
          ("### " ++ entry.1 ++ "\n- 本周共" ++ toString entry.2.length ++ "篇相关论文") =
          true :=
  spec_C4_fallback "2025-01-01" idx0 "Connection timeout"

/-- Counterexample to C2 as stated: a card with no title element is not
skipped — on a 200 page holding exactly one such card (whose metadata
matches the configured category), the extraction produces one record, with
empty `title` and `url`, instead of none. -/
theorem spec_C2_counterexample :
    get_daily_papers "2025-01-01" (.success 200 [⟨none, some "An abstract", some cat0⟩]) =
      [⟨"2025-01-01", "", "An abstract", cat0, ""⟩] := by decide

/-- C2 amended: an absent title element does not cause a skip; it yields
empty `title` and `url` strings, the unit being excluded only when the
category filter rejects its metadata. An absent abstract element likewise
yields a record whose `abstract` is the empty string. -/
theorem spec_C2_amended (d : String) (u : PaperUnit) :
    (u.titleElem = none →
      extractUnit d u =
        (if matchesFilter (metaOf u) then
          some ⟨d, "", abstractOf u, metaOf u, ""⟩
        else none)) ∧
    (u.abstractText = none → ∀ r, extractUnit d u = some r → r.abstract = "") := by
  constructor
  · intro ht
    unfold extractUnit
    simp [titleOf, urlOf, ht]
  · intro ha r hr
    unfold extractUnit at hr
    split at hr
    · cases hr
      simp [abstractOf, ha]
    · cases hr

/-- Witness for C2 amended at the concrete card `u0` (no title element, no
abstract element). -/
theorem spec_C2_witness :
    (extractUnit "d" u0 =
      (if matchesFilter (metaOf u0) then
        some ⟨"d", "", abstractOf u0, metaOf u0, ""⟩
      else none)) ∧
    r0.abstract = "" :=
  ⟨(spec_C2_amended "d" u0).1 rfl, (spec_C2_amended "d" u0).2 rfl r0 (by decide)⟩

/-- Counterexample to C3 as stated: the hardcoded empty-window report lists
a zero count for `stat.ML`, which is not a configured category, and never
mentions the one configured category label — its category list does not
reflect the configured category set. -/
theorem spec_C3_counterexample :
    strContains (emptyReport "2025-01-01") "stat.ML：0篇" = true ∧
    strContains (emptyReport "2025-01-01") cat0 = false ∧
    TARGET_CATEGORIES = [cat0] := by
  refine ⟨by decide, by decide, rfl⟩

/-- C3 amended: when the weekly record count is exactly zero, the
text-generation backend is never invoked and the produced report equals
the fixed empty-window template — whose zero-count category list is the
hardcoded `cs.AI / cs.LG / stat.ML`, independent of the configured
category set. -/
theorem spec_C3_amended (today : String) (backendResult : Except String String)
    (weekly_papers : List PaperRecord)
    (categorized : List (String × List PaperRecord))
    (h : weekly_papers.length = 0) :
    mainReport today backendResult weekly_papers categorized = (emptyReport today, false) := by
  simp [mainReport, h]

/-- Witness for C3 amended on an empty flat list. -/
theorem spec_C3_witness :
    mainReport "2025-01-01" (.ok "x") [] (initIdx TARGET_CATEGORIES) =
      (emptyReport "2025-01-01", false) :=
  spec_C3_amended "2025-01-01" (.ok "x") [] (initIdx TARGET_CATEGORIES) rfl

/-- Counterexample to C8 as stated: the sink writes the report text
verbatim, prefixing no generation-date header — a successful backend
completion `"hello"` reaches `weekly_report.md` as exactly `"hello"`,
which contains no date header line. -/
theorem spec_C8_counterexample :
    (save_files [p0] (mainReport "2025-01-01" (.ok "hello") [p0] idx0).1).2 = "hello" ∧
    strContains "hello" "# arXiv 每周论文汇总" = false := by
  refine ⟨by decide, by decide⟩

/-- C8 amended: the sink writes the flat records as a JSON list of objects
whose keys appear in the order `date, title, abstract, meta, url`, string
values escaped only at JSON-special ASCII characters so that non-ASCII
characters are preserved unescaped, and writes the report text to the
document verbatim (a generation-date header is present only insofar as the
report text itself begins with one). -/
theorem spec_C8_amended (weekly_papers : List PaperRecord) (report : String)
    (p : PaperRecord) (hp : p ∈ weekly_papers) (s : String)
    (hs : ∀ c ∈ s.data, c ≠ '"' ∧ c ≠ '\\' ∧ c ≠ '/' ∧ 31 < c.toNat) :
    (save_files weekly_papers report).2 = report ∧
    strContains (save_files weekly_papers report).1 (recordToJson p) = true ∧
    recordToJson p =
      "\x7b\"date\":\"" ++ escapeJson p.date ++
      "\",\"title\":\"" ++ escapeJson p.title ++
      "\",\"abstract\":\"" ++ escapeJson p.abstract ++
      "\",\"meta\":\"" ++ escapeJson p.meta ++
      "\",\"url\":\"" ++ escapeJson p.url ++ "\"\x7d" ∧
    escapeJson s = s := by
  refine ⟨rfl, ?_, rfl, escapeJson_clean s hs⟩
  obtain ⟨pj, qj, hj⟩ := joinSep_mem "," (weekly_papers.map recordToJson) (recordToJson p)
    (List.mem_map.mpr ⟨p, hp, rfl⟩)
  apply strContains_of_eq _ _ ("[" ++ pj) (qj ++ "]")
  apply String.ext
  simp [save_files, hj, String.data_append, List.append_assoc]

/-- Witness for C8 amended: a one-record export together with a clean
non-ASCII sample string that serializes verbatim. -/
theorem spec_C8_witness :
    (save_files [p0] "r").2 = "r" ∧
    strContains (save_files [p0] "r").1 (recordToJson p0) = true ∧
    recordToJson p0 =
      "\x7b\"date\":\"" ++ escapeJson p0.date ++
      "\",\"title\":\"" ++ escapeJson p0.title ++
      "\",\"abstract\":\"" ++ escapeJson p0.abstract ++
      "\",\"meta\":\"" ++ escapeJson p0.meta ++
      "\",\"url\":\"" ++ escapeJson p0.url ++ "\"\x7d" ∧
    escapeJson "每周论文汇总 αβ" = "每周论文汇总 αβ" :=
  spec_C8_amended [p0] "r" p0 (by decide) "每周论文汇总 αβ" (by decide)
